import Mathlib

/-!
Verification of the core conversion logic of a client-side image converter
(`converter.js`).  JavaScript strings are modelled as lists of UTF-16 code
units (`List ℕ`), byte buffers as lists of naturals below 256, and the
`DataView` little-endian stores of the BMP writer as explicit byte lists
(`setUint32`/`setInt32` store the value modulo 2^32, `setUint8` modulo 256).
-/

/-- UTF-16 encoding of a single code point, as JavaScript strings store it:
code points below 0x10000 are one code unit, larger ones a surrogate pair. -/
def utf16EncodeCP (v : ℕ) : List ℕ :=
  if v < 65536 then [v]
  else [55296 + (v - 65536) / 1024, 56320 + (v - 65536) % 1024]

/-- A Lean string literal viewed as a JavaScript string (UTF-16 code units). -/
def jsStr (s : String) : List ℕ :=
  (s.data.map (fun c => utf16EncodeCP c.toNat)).flatten

/-- A JS `Blob`: a MIME type string and a byte payload. -/
structure Blob where
  mime : List ℕ
  bytes : List ℕ
deriving DecidableEq, Repr

/-- Little-endian bytes of a 16-bit store (`DataView.setUint16 _ n true`). -/
def le16 (n : ℕ) : List ℕ := [n % 256, n / 256 % 256]

/-- Little-endian bytes of a 32-bit store (`DataView.setUint32`/`setInt32`
with a nonnegative value, which store the value modulo 2^32). -/
def le32 (n : ℕ) : List ℕ :=
  [n % 256, n / 256 % 256, n / 65536 % 256, n / 16777216 % 256]

/-- Read back a little-endian unsigned integer from a byte list. -/
def decodeLE32 (l : List ℕ) : ℕ := l.foldr (fun b acc => b + 256 * acc) 0

/-- `rowStride = Math.floor((24 * width + 31) / 32) * 4` from `canvasToBMP`. -/
def rowStride (w : ℕ) : ℕ := (24 * w + 31) / 32 * 4

/-- `pixelArraySize = rowStride * height` from `canvasToBMP`. -/
def pixelArraySize (w h : ℕ) : ℕ := rowStride w * h

/-- `fileSize = 54 + pixelArraySize` from `canvasToBMP`. -/
def fileSize (w h : ℕ) : ℕ := 54 + pixelArraySize w h

/-- The 54 header bytes written by `canvasToBMP`: the 14-byte
BITMAPFILEHEADER followed by the 40-byte BITMAPINFOHEADER, in the exact
order of the `DataView` stores in the source. -/
def bmpHeader (w h : ℕ) : List ℕ :=
  [66, 77] ++ le32 (fileSize w h) ++ le16 0 ++ le16 0 ++ le32 54 ++
  le32 40 ++ le32 w ++ le32 h ++ le16 1 ++ le16 24 ++ le32 0 ++
  le32 (pixelArraySize w h) ++ le32 2835 ++ le32 2835 ++ le32 0 ++ le32 0

/-- The three bytes written for pixel `(x, y)`: the source reads
`r = pixels[i]`, `g = pixels[i+1]`, `b = pixels[i+2]` at
`i = (y * width + x) * 4` and stores `b`, `g`, `r` (`setUint8` stores
modulo 256; `ImageData` entries are already bytes). -/
def bgrPixel (w : ℕ) (px : ℕ → ℕ) (y x : ℕ) : List ℕ :=
  [px ((y * w + x) * 4 + 2) % 256, px ((y * w + x) * 4 + 1) % 256,
   px ((y * w + x) * 4) % 256]

/-- One pixel-array row of `canvasToBMP`: the BGR bytes of source row `y`
left to right, then `rowStride - width * 3` zero padding bytes. -/
def rowBytes (w : ℕ) (px : ℕ → ℕ) (y : ℕ) : List ℕ :=
  ((List.range w).map (bgrPixel w px y)).flatten ++
    List.replicate (rowStride w - w * 3) 0

/-- The pixel array of `canvasToBMP`: the source loop runs
`y = height - 1` down to `0`, so the `r`-th row written is source row
`height - 1 - r`. -/
def pixelArray (w h : ℕ) (px : ℕ → ℕ) : List ℕ :=
  ((List.range h).map (fun r => rowBytes w px (h - 1 - r))).flatten

/-- `canvasToBMP`: the full BMP file bytes (header then bottom-up pixel
array), wrapped in a Blob of type `image/bmp`. -/
def canvasToBMP (w h : ℕ) (px : ℕ → ℕ) : Blob :=
  ⟨jsStr "image/bmp", bmpHeader w h ++ pixelArray w h px⟩

theorem rowStride_mod_four (w : ℕ) : rowStride w % 4 = 0 := by
  unfold rowStride; omega

theorem rowStride_ge (w : ℕ) : w * 3 ≤ rowStride w := by
  unfold rowStride; omega

theorem length_join_const {β : Type} (L : List (List β)) (c : ℕ)
    (h : ∀ l ∈ L, l.length = c) : L.flatten.length = L.length * c := by
  induction L with
  | nil => simp
  | cons a T ih =>
      have ha := h a (List.mem_cons_self a T)
      have hT := ih (fun l hl => h l (List.mem_cons_of_mem a hl))
      simp only [List.flatten_cons, List.length_append, List.length_cons, ha, hT]
      ring

theorem rowBytes_length (w : ℕ) (px : ℕ → ℕ) (y : ℕ) :
    (rowBytes w px y).length = rowStride w := by
  have hj : (((List.range w).map (bgrPixel w px y)).flatten).length = w * 3 := by
    have := length_join_const ((List.range w).map (bgrPixel w px y)) 3 ?_
    · simpa using this
    · intro l hl
      rcases List.mem_map.mp hl with ⟨x, _, rfl⟩
      simp [bgrPixel]
  have := rowStride_ge w
  simp [rowBytes, hj]
  omega

theorem pixelArray_length (w h : ℕ) (px : ℕ → ℕ) :
    (pixelArray w h px).length = pixelArraySize w h := by
  have := length_join_const ((List.range h).map (fun r => rowBytes w px (h - 1 - r)))
    (rowStride w) ?_
  · simpa [pixelArray, pixelArraySize, Nat.mul_comm] using this
  · intro l hl
    rcases List.mem_map.mp hl with ⟨r, _, rfl⟩
    exact rowBytes_length w px _

theorem bmpHeader_length (w h : ℕ) : (bmpHeader w h).length = 54 := by
  simp [bmpHeader, le16, le32]

theorem canvasToBMP_length (w h : ℕ) (px : ℕ → ℕ) :
    (canvasToBMP w h px).bytes.length = fileSize w h := by
  simp [canvasToBMP, bmpHeader_length, pixelArray_length, fileSize]

theorem decodeLE32_le32 (n : ℕ) (hn : n < 4294967296) : decodeLE32 (le32 n) = n := by
  simp only [decodeLE32, le32, List.foldr]
  omega

/-- C1: for every RGBA input of positive width and height (with the file
size representable as an unsigned 32-bit value, as the BMP size field
requires), the BMP writer computes `rowStride = ⌊(24w + 31) / 32⌋ * 4`,
produces exactly `54 + rowStride * h` bytes, stores that exact byte length
in the little-endian u32 field at offset 2, and `rowStride` is a multiple
of 4 and at least `w * 3`. -/
theorem canvasToBMP_size_ok (w h : ℕ) (px : ℕ → ℕ)
    (hw : 0 < w) (hh : 0 < h) (hfit : fileSize w h < 4294967296) :
    (canvasToBMP w h px).bytes.length = 54 + rowStride w * h ∧
    rowStride w = (24 * w + 31) / 32 * 4 ∧
    decodeLE32 (((canvasToBMP w h px).bytes.drop 2).take 4) =
      (canvasToBMP w h px).bytes.length ∧
    rowStride w % 4 = 0 ∧ w * 3 ≤ rowStride w := by
  refine ⟨?_, rfl, ?_, rowStride_mod_four w, rowStride_ge w⟩
  · simpa [fileSize, pixelArraySize] using canvasToBMP_length w h px
  · have hshape : (canvasToBMP w h px).bytes =
        [66, 77] ++ (le32 (fileSize w h) ++
          (le16 0 ++ le16 0 ++ le32 54 ++ le32 40 ++ le32 w ++ le32 h ++
           le16 1 ++ le16 24 ++ le32 0 ++ le32 (pixelArraySize w h) ++
           le32 2835 ++ le32 2835 ++ le32 0 ++ le32 0 ++ pixelArray w h px)) := by
      simp [canvasToBMP, bmpHeader]
    rw [hshape]
    rw [List.drop_left' (show ([66, 77] : List ℕ).length = 2 from by simp)]
    rw [List.take_left' (show (le32 (fileSize w h)).length = 4 from by simp [le32])]
    rw [decodeLE32_le32 _ hfit, ← hshape, canvasToBMP_length]

/-- Witness for C1 at the concrete 2×2 buffer. -/
def testPx : ℕ → ℕ := fun i =>
  [255, 0, 0, 255, 0, 255, 0, 255, 0, 0, 255, 255, 255, 255, 0, 255].getD i 0

theorem canvasToBMP_size_ok_wit :
    (canvasToBMP 2 2 testPx).bytes.length = 54 + rowStride 2 * 2 ∧
    rowStride 2 = (24 * 2 + 31) / 32 * 4 ∧
    decodeLE32 (((canvasToBMP 2 2 testPx).bytes.drop 2).take 4) =
      (canvasToBMP 2 2 testPx).bytes.length ∧
    rowStride 2 % 4 = 0 ∧ 2 * 3 ≤ rowStride 2 :=
  canvasToBMP_size_ok 2 2 testPx (by norm_num) (by norm_num) (by decide)

/-- C2: the first 54 bytes of the writer's output are exactly the specified
headers, all multi-byte fields little-endian; the width and height fields
decode to the input dimensions (as positive 32-bit values). -/
theorem canvasToBMP_header_ok (w h : ℕ) (px : ℕ → ℕ)
    (hw : w < 2147483648) (hpos : 0 < h) (hh : h < 2147483648) :
    (canvasToBMP w h px).bytes.take 54 =
      [66, 77] ++ le32 (fileSize w h) ++ le16 0 ++ le16 0 ++ le32 54 ++
      le32 40 ++ le32 w ++ le32 h ++ le16 1 ++ le16 24 ++ le32 0 ++
      le32 (pixelArraySize w h) ++ le32 2835 ++ le32 2835 ++ le32 0 ++ le32 0 ∧
    decodeLE32 (((canvasToBMP w h px).bytes.drop 18).take 4) = w ∧
    decodeLE32 (((canvasToBMP w h px).bytes.drop 22).take 4) = h ∧
    0 < decodeLE32 (((canvasToBMP w h px).bytes.drop 22).take 4) := by
  have hwidth : decodeLE32 (((canvasToBMP w h px).bytes.drop 18).take 4) = w := by
    have hshape : (canvasToBMP w h px).bytes =
        ([66, 77] ++ le32 (fileSize w h) ++ le16 0 ++ le16 0 ++ le32 54 ++
         le32 40) ++ (le32 w ++
          (le32 h ++ le16 1 ++ le16 24 ++ le32 0 ++ le32 (pixelArraySize w h) ++
           le32 2835 ++ le32 2835 ++ le32 0 ++ le32 0 ++ pixelArray w h px)) := by
      simp [canvasToBMP, bmpHeader]
    rw [hshape, List.drop_left' (by simp [le16, le32]),
      List.take_left' (by simp [le32]), decodeLE32_le32 _ (by omega)]
  have hheight : decodeLE32 (((canvasToBMP w h px).bytes.drop 22).take 4) = h := by
    have hshape : (canvasToBMP w h px).bytes =
        ([66, 77] ++ le32 (fileSize w h) ++ le16 0 ++ le16 0 ++ le32 54 ++
         le32 40 ++ le32 w) ++ (le32 h ++
          (le16 1 ++ le16 24 ++ le32 0 ++ le32 (pixelArraySize w h) ++
           le32 2835 ++ le32 2835 ++ le32 0 ++ le32 0 ++ pixelArray w h px)) := by
      simp [canvasToBMP, bmpHeader]
    rw [hshape, List.drop_left' (by simp [le16, le32]),
      List.take_left' (by simp [le32]), decodeLE32_le32 _ (by omega)]
  refine ⟨?_, hwidth, hheight, ?_⟩
  · show (bmpHeader w h ++ pixelArray w h px).take 54 = _
    rw [List.take_left' (bmpHeader_length w h)]
    rfl
  · rw [hheight]; exact hpos

/-- Witness for C2 at the concrete 2×2 buffer. -/
theorem canvasToBMP_header_ok_wit :
    (canvasToBMP 2 2 testPx).bytes.take 54 =
      [66, 77] ++ le32 (fileSize 2 2) ++ le16 0 ++ le16 0 ++ le32 54 ++
      le32 40 ++ le32 2 ++ le32 2 ++ le16 1 ++ le16 24 ++ le32 0 ++
      le32 (pixelArraySize 2 2) ++ le32 2835 ++ le32 2835 ++ le32 0 ++ le32 0 ∧
    decodeLE32 (((canvasToBMP 2 2 testPx).bytes.drop 18).take 4) = 2 ∧
    decodeLE32 (((canvasToBMP 2 2 testPx).bytes.drop 22).take 4) = 2 ∧
    0 < decodeLE32 (((canvasToBMP 2 2 testPx).bytes.drop 22).take 4) :=
  canvasToBMP_header_ok 2 2 testPx (by norm_num) (by norm_num) (by norm_num)

theorem flatten_extract {β : Type} :
    ∀ (L : List (List β)) (s : ℕ), (∀ l ∈ L, l.length = s) →
      ∀ r, r < L.length → (L.flatten.drop (r * s)).take s = L.getD r [] := by
  intro L
  induction L with
  | nil => intro s _ r hr; simp at hr
  | cons a T ih =>
      intro s hlen r hr
      match r with
      | 0 =>
          simp only [Nat.zero_mul, List.drop_zero, List.flatten_cons, List.getD_cons_zero]
          exact List.take_left' (hlen a (List.mem_cons_self a T))
      | Nat.succ r' =>
          have ha : a.length = s := hlen a (List.mem_cons_self a T)
          have hdrop : ((a :: T).flatten).drop (Nat.succ r' * s) =
              (T.flatten).drop (r' * s) := by
            have : Nat.succ r' * s = a.length + r' * s := by
              rw [ha, Nat.succ_mul]; ring
            rw [this, List.flatten_cons, ← List.drop_drop, List.drop_left]
          rw [hdrop, List.getD_cons_succ]
          exact ih s (fun l hl => hlen l (List.mem_cons_of_mem a hl)) r'
            (by simpa using Nat.lt_of_succ_lt_succ hr)

theorem getD_map_range {β : Type} (f : ℕ → List β) (h r : ℕ) (hr : r < h) :
    ((List.range h).map f).getD r [] = f r := by
  rw [List.getD_eq_getElem ((List.range h).map f) []
    (by simpa using hr)]
  simp

/-- C3: the pixel array (offset 54 on) holds the source rows bottom-up: the
`r`-th stored row is source row `h - 1 - r`, written left-to-right as
Blue, Green, Red bytes with alpha dropped, followed by exactly
`rowStride - w * 3` zero padding bytes. -/
theorem canvasToBMP_pixelArray_ok (w h r : ℕ) (px : ℕ → ℕ)
    (hr : r < h) (hpx : ∀ i, px i < 256) :
    ((canvasToBMP w h px).bytes.drop (54 + r * rowStride w)).take (rowStride w) =
      ((List.range w).map (fun x =>
        [px (((h - 1 - r) * w + x) * 4 + 2), px (((h - 1 - r) * w + x) * 4 + 1),
         px (((h - 1 - r) * w + x) * 4)])).flatten ++
      List.replicate (rowStride w - w * 3) 0 := by
  have hdrop : (canvasToBMP w h px).bytes.drop (54 + r * rowStride w) =
      (pixelArray w h px).drop (r * rowStride w) := by
    show ((bmpHeader w h ++ pixelArray w h px).drop (54 + r * rowStride w)) = _
    rw [← List.drop_drop, List.drop_left' (bmpHeader_length w h)]
  rw [hdrop]
  have hext := flatten_extract
    ((List.range h).map (fun i => rowBytes w px (h - 1 - i))) (rowStride w)
    (fun l hl => by
      rcases List.mem_map.mp hl with ⟨i, _, rfl⟩
      exact rowBytes_length w px _)
    r (by simpa using hr)
  rw [show pixelArray w h px =
      ((List.range h).map (fun i => rowBytes w px (h - 1 - i))).flatten from rfl]
  rw [hext, getD_map_range _ h r hr]
  unfold rowBytes
  congr 1
  refine congrArg List.flatten (List.map_congr_left ?_)
  intro x _
  simp [bgrPixel, Nat.mod_eq_of_lt (hpx _)]

/-- Witness for C3: width 1, height 2, top stored row is source row 1. -/
theorem canvasToBMP_pixelArray_ok_wit :
    ((canvasToBMP 1 2 (fun i => i % 256)).bytes.drop
        (54 + 0 * rowStride 1)).take (rowStride 1) =
      ((List.range 1).map (fun x =>
        [(fun i => i % 256) (((2 - 1 - 0) * 1 + x) * 4 + 2),
         (fun i => i % 256) (((2 - 1 - 0) * 1 + x) * 4 + 1),
         (fun i => i % 256) (((2 - 1 - 0) * 1 + x) * 4)])).flatten ++
      List.replicate (rowStride 1 - 1 * 3) 0 :=
  canvasToBMP_pixelArray_ok 1 2 0 (fun i => i % 256) (by norm_num)
    (fun i => Nat.mod_lt i (by norm_num))

/-- C4: the concrete 2×2 fully-opaque buffer with pixels
(255,0,0), (0,255,0), (0,0,255), (255,255,0) in row-major top-to-bottom
order encodes to exactly 70 bytes, and the first stored pixel-array row is
the bottom source row in BGR order padded with zeros to the 8-byte stride. -/
theorem canvasToBMP_example_ok :
    (canvasToBMP 2 2 testPx).bytes.length = 70 ∧
    ((canvasToBMP 2 2 testPx).bytes.drop 54).take 8 =
      [255, 0, 0, 0, 255, 255, 0, 0] := by
  constructor
  · decide
  · decide

/-- `Math.round` on a rational: JavaScript rounds half toward positive
infinity, i.e. `Math.round(x) = ⌊x + 1/2⌋`. -/
def jsRound (q : ℚ) : ℤ := ⌊q + 1 / 2⌋

/-- `const width = Math.max(1, Math.round(img.naturalWidth * scale))` from
`convertImageFile`. -/
def targetWidth (naturalWidth : ℕ) (scale : ℚ) : ℤ :=
  max 1 (jsRound (naturalWidth * scale))

/-- `const height = Math.max(1, Math.round(img.naturalHeight * scale))` from
`convertImageFile`. -/
def targetHeight (naturalHeight : ℕ) (scale : ℚ) : ℤ :=
  max 1 (jsRound (naturalHeight * scale))

/-- Spec-side definition, following the spec's words: the resampled
dimension along one axis is `max(1, round(natural * scale))`. -/
def resampledDimSpec (n : ℕ) (scale : ℚ) : ℤ := max 1 (jsRound (n * scale))

/-- C5: both resampled target dimensions equal `max(1, round(natural * scale))`
with the same scale factor applied to both axes, and both are at least 1. -/
theorem targetDims_ok (nw nh : ℕ) (s : ℚ) :
    targetWidth nw s = resampledDimSpec nw s ∧
    targetHeight nh s = resampledDimSpec nh s ∧
    1 ≤ targetWidth nw s ∧ 1 ≤ targetHeight nh s :=
  ⟨rfl, rfl, le_max_left 1 _, le_max_left 1 _⟩

/-- The runtime exceptions `dataURLToBlob` and the encoder path can raise:
reading a property of `undefined` (missing type tag), `URIError` from
`decodeURIComponent`, `InvalidCharacterError` from `atob`, the explicit
`new Error('Conversion to blob failed.')` rejection, and a synchronous
throw from the environment. -/
inductive JsError where
  | typeError
  | uriError
  | invalidCharacterError
  | blobFailed
  | envThrow
deriving DecidableEq, Repr

deriving instance DecidableEq for Except

/-- The part of a JS string before the first occurrence of `c`, and, when
`c` occurs, the remainder after it.  `String.split` indices 0 and 1 are
recovered from this. -/
def splitFirst (c : ℕ) : List ℕ → List ℕ × Option (List ℕ)
  | [] => ([], none)
  | a :: t =>
    if a = c then ([], some t)
    else
      let r := splitFirst c t
      (a :: r.1, r.2)

/-- `meta.split(':')[1].split(';')[0]` from `dataURLToBlob`; `none` when
`meta` has no colon, in which case the JS code throws a `TypeError` on
reading `.split` of `undefined`. -/
def contentTypeOf (meta : List ℕ) : Option (List ℕ) :=
  match (splitFirst 58 meta).2 with
  | none => none
  | some afterColon => some (splitFirst 59 (splitFirst 58 afterColon).1).1

/-- Boolean prefix test on code-unit lists. -/
def beginsWith : List ℕ → List ℕ → Bool
  | [], _ => true
  | _ :: _, [] => false
  | a :: ps, b :: l => a == b && beginsWith ps l

/-- Boolean substring test: `s.indexOf(pat) >= 0`. -/
def strContains (pat : List ℕ) : List ℕ → Bool
  | [] => beginsWith pat []
  | b :: l => beginsWith pat (b :: l) || strContains pat l

/-- Value of one character of the standard base64 alphabet. -/
def b64Val (c : ℕ) : Option ℕ :=
  if 65 ≤ c ∧ c ≤ 90 then some (c - 65)
  else if 97 ≤ c ∧ c ≤ 122 then some (c - 71)
  else if 48 ≤ c ∧ c ≤ 57 then some (c + 4)
  else if c = 43 then some 62
  else if c = 47 then some 63
  else none

/-- Map every character to its base64 value; `none` on a foreign character. -/
def b64Sextets : List ℕ → Option (List ℕ)
  | [] => some []
  | c :: t =>
    match b64Val c with
    | none => none
    | some v => (b64Sextets t).map (v :: ·)

/-- Reassemble sextets into bytes, four sextets to three bytes; a final
group of two or three sextets yields one or two bytes with the excess low
bits discarded (forgiving-base64); a lone trailing sextet is an error. -/
def b64Chunks : List ℕ → Option (List ℕ)
  | [] => some []
  | [_] => none
  | [a, b] => some [a * 4 + b / 16]
  | [a, b, c] => some [a * 4 + b / 16, b % 16 * 16 + c / 4]
  | a :: b :: c :: d :: t =>
    (b64Chunks t).map (fun r =>
      (a * 4 + b / 16) :: ((b % 16 * 16 + c / 4) :: ((c % 4 * 64 + d) :: r)))

/-- ASCII whitespace stripped by forgiving-base64. -/
def isB64Space (c : ℕ) : Bool := c == 9 || c == 10 || c == 12 || c == 13 || c == 32

/-- `atob`: the WHATWG forgiving-base64 decoder.  Strips ASCII whitespace,
removes up to two trailing `=` when the length is a multiple of four,
rejects a remainder-one length and foreign characters, and decodes the
standard alphabet.  `none` models the `InvalidCharacterError` throw. -/
def atobJS (input : List ℕ) : Option (List ℕ) :=
  let d := input.filter (fun c => !isB64Space c)
  let d2 :=
    if d.length % 4 = 0 then
      match d.reverse with
      | 61 :: 61 :: r => r.reverse
      | 61 :: r => r.reverse
      | _ => d
    else d
  if d2.length % 4 = 1 then none
  else
    match b64Sextets d2 with
    | none => none
    | some sx => b64Chunks sx

/-- Value of an ASCII hex digit (both cases), as `decodeURIComponent`
accepts in `%XX` escapes. -/
def hexDigit (c : ℕ) : Option ℕ :=
  if 48 ≤ c ∧ c ≤ 57 then some (c - 48)
  else if 65 ≤ c ∧ c ≤ 70 then some (c - 55)
  else if 97 ≤ c ∧ c ≤ 102 then some (c - 87)
  else none

/-- Read one `%XX` escape from the head of the list, returning the byte
and the remaining characters. -/
def pctByte : List ℕ → Option (ℕ × List ℕ)
  | 37 :: h1 :: h2 :: t =>
    match hexDigit h1, hexDigit h2 with
    | some a, some b => some (16 * a + b, t)
    | _, _ => none
  | _ => none

/-- One step of the ECMAScript `Decode` abstract operation (the body of
`decodeURIComponent`), producing code points: a non-`%` character passes
through; a `%XX` escape below 0x80 is one code point; a lead byte
0xC2–0xF4 must be followed by the exact number of `%XX` continuation
escapes forming a valid (shortest-form, non-surrogate, ≤ 0x10FFFF) UTF-8
sequence, otherwise `URIError`.  Fuel decreases once per decoded unit;
`decodeURIComponentCP` supplies enough. -/
def uriDecodeAux : ℕ → List ℕ → Option (List ℕ)
  | _, [] => some []
  | 0, _ :: _ => none
  | fuel + 1, c :: t =>
    if c ≠ 37 then (uriDecodeAux fuel t).map (c :: ·)
    else
      match pctByte (c :: t) with
      | none => none
      | some (b1, t1) =>
        if b1 < 128 then (uriDecodeAux fuel t1).map (b1 :: ·)
        else if b1 < 194 then none
        else if b1 ≤ 223 then
          match pctByte t1 with
          | none => none
          | some (b2, t2) =>
            if 128 ≤ b2 ∧ b2 ≤ 191 then
              (uriDecodeAux fuel t2).map (((b1 - 192) * 64 + (b2 - 128)) :: ·)
            else none
        else if b1 ≤ 239 then
          match pctByte t1 with
          | none => none
          | some (b2, t2) =>
            match pctByte t2 with
            | none => none
            | some (b3, t3) =>
              if (if b1 = 224 then 160 else 128) ≤ b2 ∧
                 b2 ≤ (if b1 = 237 then 159 else 191) ∧
                 128 ≤ b3 ∧ b3 ≤ 191 then
                (uriDecodeAux fuel t3).map
                  (((b1 - 224) * 4096 + (b2 - 128) * 64 + (b3 - 128)) :: ·)
              else none
        else if b1 ≤ 244 then
          match pctByte t1 with
          | none => none
          | some (b2, t2) =>
            match pctByte t2 with
            | none => none
            | some (b3, t3) =>
              match pctByte t3 with
              | none => none
              | some (b4, t4) =>
                if (if b1 = 240 then 144 else 128) ≤ b2 ∧
                   b2 ≤ (if b1 = 244 then 143 else 191) ∧
                   128 ≤ b3 ∧ b3 ≤ 191 ∧ 128 ≤ b4 ∧ b4 ≤ 191 then
                  (uriDecodeAux fuel t4).map
                    (((b1 - 240) * 262144 + (b2 - 128) * 4096 +
                      (b3 - 128) * 64 + (b4 - 128)) :: ·)
                else none
        else none

/-- `decodeURIComponent` viewed as producing the decoded code points. -/
def decodeURIComponentCP (l : List ℕ) : Option (List ℕ) :=
  uriDecodeAux l.length l

/-- `decodeURIComponent` as JavaScript sees the result: the decoded code
points re-encoded as UTF-16 code units (astral code points become a
surrogate pair, so one such character yields two code units). -/
def decodeURIComponentJS (l : List ℕ) : Option (List ℕ) :=
  (decodeURIComponentCP l).map (fun cps => (cps.map utf16EncodeCP).flatten)

/-- `dataURLToBlob` from the source: split at the first comma, detect
`base64` in the metadata, extract the content type (throwing when there is
no colon), decode the payload with `atob` or `decodeURIComponent`, and
store each resulting code unit into a `Uint8Array` entry (which keeps the
value modulo 256).  A missing payload part is the JS `undefined`, which
both decoders receive coerced to the string `"undefined"`. -/
def dataURLToBlob (dataURL : List ℕ) : Except JsError Blob :=
  let sp := splitFirst 44 dataURL
  let meta := sp.1
  let raw :=
    match sp.2 with
    | none => jsStr "undefined"
    | some rest => (splitFirst 44 rest).1
  let isBase64 := strContains (jsStr "base64") meta
  match contentTypeOf meta with
  | none => Except.error JsError.typeError
  | some contentType =>
    if isBase64 then
      match atobJS raw with
      | none => Except.error JsError.invalidCharacterError
      | some binary => Except.ok ⟨contentType, binary.map (· % 256)⟩
    else
      match decodeURIComponentJS raw with
      | none => Except.error JsError.uriError
      | some decoded => Except.ok ⟨contentType, decoded.map (· % 256)⟩

example : atobJS (jsStr "TWFu") = some [77, 97, 110] := by decide
example : atobJS (jsStr "AAAA") = some [0, 0, 0] := by decide
example : atobJS (jsStr "TWE=") = some [77, 97] := by decide
example : atobJS (jsStr "TQ==") = some [77] := by decide
example : atobJS (jsStr "TWF.") = none := by decide
example : decodeURIComponentCP (jsStr "%E2%82%AC") = some [8364] := by decide
example : decodeURIComponentCP (jsStr "abc%20d") = some [97, 98, 99, 32, 100] := by decide
example : decodeURIComponentCP (jsStr "%F0%9F%98%80") = some [128512] := by decide
example : decodeURIComponentCP (jsStr "%E0%80%80") = none := by decide
example : decodeURIComponentCP (jsStr "%ED%A0%80") = none := by decide
example : decodeURIComponentCP (jsStr "%ZZ") = none := by decide
example : dataURLToBlob (jsStr "data:image/png;base64,AAAA") =
    Except.ok ⟨jsStr "image/png", [0, 0, 0]⟩ := by decide
example : dataURLToBlob (jsStr "nocolonhere,AAAA") =
    Except.error JsError.typeError := by decide

theorem map_mod256_eq_self (bs : List ℕ) (h : ∀ b ∈ bs, b < 256) :
    bs.map (· % 256) = bs := by
  induction bs with
  | nil => rfl
  | cons a t ih =>
      simp only [List.map_cons, Nat.mod_eq_of_lt (h a (List.mem_cons_self a t)),
        ih (fun b hb => h b (List.mem_cons_of_mem a hb))]

theorem b64Val_lt (c v : ℕ) (h : b64Val c = some v) : v < 64 := by
  unfold b64Val at h
  split_ifs at h <;> simp_all <;> omega

theorem b64Sextets_mem_lt : ∀ (l sx : List ℕ), b64Sextets l = some sx →
    ∀ v ∈ sx, v < 64
  | [], sx, h => by
      simp only [b64Sextets, Option.some.injEq] at h
      subst h; simp
  | c :: t, sx, h => by
      simp only [b64Sextets] at h
      cases hv : b64Val c with
      | none => rw [hv] at h; simp at h
      | some v =>
          rw [hv] at h
          rcases Option.map_eq_some'.mp h with ⟨tx, htx, rfl⟩
          intro x hx
          rcases List.mem_cons.mp hx with rfl | hx'
          · exact b64Val_lt c x hv
          · exact b64Sextets_mem_lt t tx htx x hx'

theorem b64Chunks_mem_lt : ∀ (l : List ℕ), (∀ v ∈ l, v < 64) →
    ∀ bs, b64Chunks l = some bs → ∀ b ∈ bs, b < 256
  | [], _, bs, h => by
      simp only [b64Chunks, Option.some.injEq] at h
      subst h; simp
  | [_], _, bs, h => by simp [b64Chunks] at h
  | [a, b], hl, bs, h => by
      simp only [b64Chunks, Option.some.injEq] at h
      subst h
      have ha := hl a (by simp)
      have hb := hl b (by simp)
      intro x hx
      simp only [List.mem_singleton] at hx
      omega
  | [a, b, c], hl, bs, h => by
      simp only [b64Chunks, Option.some.injEq] at h
      subst h
      have ha := hl a (by simp)
      have hb := hl b (by simp)
      have hc := hl c (by simp)
      intro x hx
      rcases List.mem_cons.mp hx with rfl | hx'
      · omega
      · simp only [List.mem_singleton] at hx'
        omega
  | a :: b :: c :: d :: t, hl, bs, h => by
      simp only [b64Chunks] at h
      rcases Option.map_eq_some'.mp h with ⟨r, hrr, rfl⟩
      have ha := hl a (by simp)
      have hb := hl b (by simp)
      have hc := hl c (by simp)
      have hd := hl d (by simp)
      have ih := b64Chunks_mem_lt t
        (fun v hv => hl v (by simp [List.mem_cons] at hv ⊢; tauto)) r hrr
      intro x hx
      rcases List.mem_cons.mp hx with rfl | hx'
      · omega
      · rcases List.mem_cons.mp hx' with rfl | hx''
        · omega
        · rcases List.mem_cons.mp hx'' with rfl | hx'''
          · omega
          · exact ih x hx'''

theorem atobCore_mem_lt (d2 bs : List ℕ)
    (h : (if d2.length % 4 = 1 then none
          else
            match b64Sextets d2 with
            | none => none
            | some sx => b64Chunks sx) = some bs) :
    ∀ b ∈ bs, b < 256 := by
  split at h
  · simp at h
  · cases hsx : b64Sextets d2 with
    | none => rw [hsx] at h; simp at h
    | some sx =>
        rw [hsx] at h
        exact b64Chunks_mem_lt sx (b64Sextets_mem_lt d2 sx hsx) bs h

theorem atobJS_mem_lt (input bs : List ℕ) (h : atobJS input = some bs) :
    ∀ b ∈ bs, b < 256 := by
  simp only [atobJS] at h
  exact atobCore_mem_lt _ bs h

theorem splitFirst_not_mem (c : ℕ) (l : List ℕ) (h : c ∉ l) :
    splitFirst c l = (l, none) := by
  induction l with
  | nil => rfl
  | cons a t ih =>
      have hac : ¬(a = c) := fun e => h (by simp [e])
      simp [splitFirst, hac, ih (fun hm => h (List.mem_cons_of_mem a hm))]

theorem splitFirst_append (c : ℕ) (m r : List ℕ) (h : c ∉ m) :
    splitFirst c (m ++ c :: r) = (m, some r) := by
  induction m with
  | nil => simp [splitFirst]
  | cons a t ih =>
      have hac : ¬(a = c) := fun e => h (by simp [e])
      simp [splitFirst, hac, ih (fun hm => h (List.mem_cons_of_mem a hm))]

theorem dataURLToBlob_eval (meta rest : List ℕ) (hm : 44 ∉ meta) (hr : 44 ∉ rest) :
    dataURLToBlob (meta ++ 44 :: rest) =
      (match contentTypeOf meta with
       | none => Except.error JsError.typeError
       | some contentType =>
         if strContains (jsStr "base64") meta then
           match atobJS rest with
           | none => Except.error JsError.invalidCharacterError
           | some binary => Except.ok ⟨contentType, binary.map (· % 256)⟩
         else
           match decodeURIComponentJS rest with
           | none => Except.error JsError.uriError
           | some decoded => Except.ok ⟨contentType, decoded.map (· % 256)⟩) := by
  simp only [dataURLToBlob, splitFirst_append 44 meta rest hm,
    splitFirst_not_mem 44 rest hr]

theorem dataURLToBlob_eval_none (meta rest : List ℕ) (hm : 44 ∉ meta)
    (hr : 44 ∉ rest) (hct : contentTypeOf meta = none) :
    dataURLToBlob (meta ++ 44 :: rest) = Except.error JsError.typeError := by
  simp only [dataURLToBlob_eval meta rest hm hr, hct]

theorem dataURLToBlob_eval_some (meta rest ct : List ℕ) (hm : 44 ∉ meta)
    (hr : 44 ∉ rest) (hct : contentTypeOf meta = some ct) :
    dataURLToBlob (meta ++ 44 :: rest) =
      (if strContains (jsStr "base64") meta then
        match atobJS rest with
        | none => Except.error JsError.invalidCharacterError
        | some binary => Except.ok ⟨ct, binary.map (· % 256)⟩
      else
        match decodeURIComponentJS rest with
        | none => Except.error JsError.uriError
        | some decoded => Except.ok ⟨ct, decoded.map (· % 256)⟩) := by
  simp only [dataURLToBlob_eval meta rest hm hr, hct]

/-- C7 (amended): for a data string `meta,payload`, `dataURLToBlob` fails
exactly when the type tag (the part after the colon of `meta`) is missing
or the payload cannot be decoded, and it returns no partial result;
on success it returns the declared content type with, for base64 payloads,
the standard-alphabet base64 decoding of the payload, and, for
percent-encoded payloads, one byte per UTF-16 code unit of the decoded
string reduced modulo 256 (not one byte per decoded character/code point:
astral characters contribute two surrogate code units, hence two bytes). -/
theorem dataURLToBlob_ok (meta rest : List ℕ) (hm : 44 ∉ meta) (hr : 44 ∉ rest) :
    ((∃ e, dataURLToBlob (meta ++ 44 :: rest) = Except.error e) ↔
      (contentTypeOf meta = none ∨
       (strContains (jsStr "base64") meta = true ∧ atobJS rest = none) ∨
       (strContains (jsStr "base64") meta = false ∧
        decodeURIComponentJS rest = none))) ∧
    (∀ ct bs, contentTypeOf meta = some ct →
      strContains (jsStr "base64") meta = true → atobJS rest = some bs →
      dataURLToBlob (meta ++ 44 :: rest) = Except.ok ⟨ct, bs⟩) ∧
    (∀ ct cus, contentTypeOf meta = some ct →
      strContains (jsStr "base64") meta = false →
      decodeURIComponentJS rest = some cus →
      dataURLToBlob (meta ++ 44 :: rest) =
        Except.ok ⟨ct, List.map (· % 256) cus⟩) := by
  refine ⟨⟨?_, ?_⟩, ?_, ?_⟩
  · rintro ⟨e, he⟩
    cases hct : contentTypeOf meta with
    | none => exact Or.inl rfl
    | some ct =>
        rw [dataURLToBlob_eval_some meta rest ct hm hr hct] at he
        by_cases hb : strContains (jsStr "base64") meta = true
        · rw [if_pos hb] at he
          cases ha : atobJS rest with
          | none => exact Or.inr (Or.inl ⟨hb, rfl⟩)
          | some bin => rw [ha] at he; simp at he
        · have hb' : strContains (jsStr "base64") meta = false := by simpa using hb
          rw [if_neg hb] at he
          cases hd : decodeURIComponentJS rest with
          | none => exact Or.inr (Or.inr ⟨hb', rfl⟩)
          | some dec => rw [hd] at he; simp at he
  · rintro (hct | ⟨hb, ha⟩ | ⟨hb, hd⟩)
    · exact ⟨JsError.typeError, dataURLToBlob_eval_none meta rest hm hr hct⟩
    · cases hct : contentTypeOf meta with
      | none => exact ⟨JsError.typeError, dataURLToBlob_eval_none meta rest hm hr hct⟩
      | some ct =>
          exact ⟨JsError.invalidCharacterError, by
            rw [dataURLToBlob_eval_some meta rest ct hm hr hct, if_pos hb, ha]⟩
    · cases hct : contentTypeOf meta with
      | none => exact ⟨JsError.typeError, dataURLToBlob_eval_none meta rest hm hr hct⟩
      | some ct =>
          exact ⟨JsError.uriError, by
            rw [dataURLToBlob_eval_some meta rest ct hm hr hct,
              if_neg (by simp [hb]), hd]⟩
  · intro ct bs hct hb ha
    rw [dataURLToBlob_eval_some meta rest ct hm hr hct, if_pos hb, ha]
    simp only [map_mod256_eq_self bs (atobJS_mem_lt rest bs ha)]
  · intro ct cus hct hb hd
    rw [dataURLToBlob_eval_some meta rest ct hm hr hct, if_neg (by simp [hb]), hd]

/-- Witness for C7's amended theorem at `data:image/png;base64,AAAA`. -/
theorem dataURLToBlob_ok_wit :
    ((∃ e, dataURLToBlob (jsStr "data:image/png;base64" ++ 44 :: jsStr "AAAA") =
        Except.error e) ↔
      (contentTypeOf (jsStr "data:image/png;base64") = none ∨
       (strContains (jsStr "base64") (jsStr "data:image/png;base64") = true ∧
        atobJS (jsStr "AAAA") = none) ∨
       (strContains (jsStr "base64") (jsStr "data:image/png;base64") = false ∧
        decodeURIComponentJS (jsStr "AAAA") = none))) ∧
    (∀ ct bs, contentTypeOf (jsStr "data:image/png;base64") = some ct →
      strContains (jsStr "base64") (jsStr "data:image/png;base64") = true →
      atobJS (jsStr "AAAA") = some bs →
      dataURLToBlob (jsStr "data:image/png;base64" ++ 44 :: jsStr "AAAA") =
        Except.ok ⟨ct, bs⟩) ∧
    (∀ ct cus, contentTypeOf (jsStr "data:image/png;base64") = some ct →
      strContains (jsStr "base64") (jsStr "data:image/png;base64") = false →
      decodeURIComponentJS (jsStr "AAAA") = some cus →
      dataURLToBlob (jsStr "data:image/png;base64" ++ 44 :: jsStr "AAAA") =
        Except.ok ⟨ct, List.map (· % 256) cus⟩) :=
  dataURLToBlob_ok (jsStr "data:image/png;base64") (jsStr "AAAA")
    (by decide) (by decide)

/-- Counterexample to C7 as stated: in the percent branch the bytes are
not one per decoded character.  Decoding `data:text/plain,%F0%9F%98%80`
yields one decoded character (code point 0x1F600) but two output bytes
(its UTF-16 surrogates modulo 256). -/
theorem dataURLToBlob_codePoint_cex :
    dataURLToBlob (jsStr "data:text/plain,%F0%9F%98%80") =
      Except.ok ⟨jsStr "text/plain", [61, 0]⟩ ∧
    (decodeURIComponentCP (jsStr "%F0%9F%98%80")).map List.length = some 1 ∧
    ([61, 0] : List ℕ).length ≠ 1 := by decide

/-- C10 (amended): in the percent-encoded branch each output byte is the
corresponding UTF-16 code unit of the decoded string reduced modulo 256;
code units above 255 are silently truncated to their low 8 bits, with no
failure (astral characters contribute two surrogate code units, and hence
two bytes, rather than one byte from their code point). -/
theorem dataURLToBlob_percent_bytes (meta rest ct cus : List ℕ)
    (hm : 44 ∉ meta) (hr : 44 ∉ rest)
    (hb : strContains (jsStr "base64") meta = false)
    (hct : contentTypeOf meta = some ct)
    (hd : decodeURIComponentJS rest = some cus) :
    dataURLToBlob (meta ++ 44 :: rest) =
      Except.ok ⟨ct, List.map (· % 256) cus⟩ := by
  rw [dataURLToBlob_eval_some meta rest ct hm hr hct, if_neg (by simp [hb]), hd]

/-- Witness for C10's amended theorem: `%E2%82%AC` decodes to the single
code unit 0x20AC, which is stored truncated to 0xAC without failure. -/
theorem dataURLToBlob_percent_bytes_wit :
    dataURLToBlob (jsStr "data:text/plain" ++ 44 :: jsStr "%E2%82%AC") =
      Except.ok ⟨jsStr "text/plain", List.map (· % 256) [8364]⟩ :=
  dataURLToBlob_percent_bytes (jsStr "data:text/plain") (jsStr "%E2%82%AC")
    (jsStr "text/plain") [8364] (by decide) (by decide) (by decide) (by decide)
    (by decide)

/-- Counterexample to C10 as stated: for `data:text/plain,%F0%9F%80%84`
the decoded string is the single character U+1F004, whose code point
reduced modulo 256 is 4, yet the produced bytes are the two surrogate
code units modulo 256, [60, 4] — not one byte per character. -/
theorem dataURLToBlob_truncation_cex :
    dataURLToBlob (jsStr "data:text/plain,%F0%9F%80%84") =
      Except.ok ⟨jsStr "text/plain", [60, 4]⟩ ∧
    (decodeURIComponentCP (jsStr "%F0%9F%80%84")).map (List.map (· % 256)) =
      some [4] ∧
    ([60, 4] : List ℕ) ≠ [4] := by decide

/-- Outcome of a `canvas.toBlob(cb, mime, q)` call: the invocation itself
throws synchronously, or the callback receives `null`, or it receives a
blob.  (When the call throws, the callback never runs.) -/
inductive ToBlobOutcome where
  | throws
  | cbNull
  | cbBlob (b : Blob)
deriving DecidableEq, Repr

/-- Outcome of a `canvas.toDataURL(mime, q)` call. -/
inductive DataURLOutcome where
  | throws
  | returns (s : List ℕ)
deriving DecidableEq, Repr

/-- The environment's encoders for one fixed canvas (input image and scale
baked in): behaviour of `toBlob` and `toDataURL` as functions of the MIME
argument and the quality argument actually passed. -/
structure JsRuntime where
  toBlobImpl : List ℕ → Option ℚ → ToBlobOutcome
  toDataURLImpl : List ℕ → ℚ → DataURLOutcome

/-- The quality argument passed to `toBlob`:
`(mime === 'image/png' ? undefined : quality)`. -/
def qualityArg (mime : List ℕ) (q : ℚ) : Option ℚ :=
  if mime = jsStr "image/png" then none else some q

/-- The catch branch of the native path: `toDataURL(mime, quality)` (note:
quality is passed here even for PNG) then `dataURLToBlob`; a throw from
either rejects the promise. -/
def fallbackEncode (rt : JsRuntime) (mime : List ℕ) (q : ℚ) : Except JsError Blob :=
  match rt.toDataURLImpl mime q with
  | DataURLOutcome.throws => Except.error JsError.envThrow
  | DataURLOutcome.returns s => dataURLToBlob s

/-- The native-format branch of `convertImageFile` (PNG/JPEG/WEBP): call
`canvas.toBlob`; a delivered blob resolves, a `null` callback argument
rejects with `Conversion to blob failed.`, and only a synchronous throw
of the `toBlob` call itself runs the data-URL fallback. -/
def convertNativeFormat (rt : JsRuntime) (mime : List ℕ) (q : ℚ) :
    Except JsError Blob :=
  match rt.toBlobImpl mime (qualityArg mime q) with
  | ToBlobOutcome.cbBlob b => Except.ok b
  | ToBlobOutcome.cbNull => Except.error JsError.blobFailed
  | ToBlobOutcome.throws => fallbackEncode rt mime q

/-- Whether the promise rejects. -/
def isErr : Except JsError Blob → Bool
  | Except.error _ => true
  | Except.ok _ => false

/-- C6 (amended): the embedded-data-string fallback runs exactly when the
`toBlob` invocation throws synchronously (e.g. the encoder entry point is
unavailable); when `toBlob` runs but reports failure by passing `null` to
its callback, the error is surfaced immediately and the fallback is not
attempted.  Hence an error is surfaced iff the callback got `null`, or
the call threw and the fallback also failed. -/
theorem convertNativeFormat_fallback (rt : JsRuntime) (mime : List ℕ) (q : ℚ) :
    (rt.toBlobImpl mime (qualityArg mime q) = ToBlobOutcome.throws →
      convertNativeFormat rt mime q = fallbackEncode rt mime q) ∧
    (rt.toBlobImpl mime (qualityArg mime q) = ToBlobOutcome.cbNull →
      convertNativeFormat rt mime q = Except.error JsError.blobFailed) ∧
    (∀ b, rt.toBlobImpl mime (qualityArg mime q) = ToBlobOutcome.cbBlob b →
      convertNativeFormat rt mime q = Except.ok b) ∧
    (isErr (convertNativeFormat rt mime q) = true ↔
      (rt.toBlobImpl mime (qualityArg mime q) = ToBlobOutcome.cbNull ∨
       (rt.toBlobImpl mime (qualityArg mime q) = ToBlobOutcome.throws ∧
        isErr (fallbackEncode rt mime q) = true))) := by
  unfold convertNativeFormat
  cases hob : rt.toBlobImpl mime (qualityArg mime q) with
  | throws => simp [hob, isErr]
  | cbNull => simp [hob, isErr]
  | cbBlob b => simp [hob, isErr]

/-- A runtime whose `toBlob` throws synchronously and whose `toDataURL`
yields a well-formed PNG data URL. -/
def rtThrows : JsRuntime :=
  ⟨fun _ _ => ToBlobOutcome.throws,
   fun _ _ => DataURLOutcome.returns (jsStr "data:image/png;base64,AAAA")⟩

/-- Witness for C6's amended theorem: with a throwing `toBlob`, the result
is exactly the fallback path's result. -/
theorem convertNativeFormat_fallback_wit :
    convertNativeFormat rtThrows (jsStr "image/webp") (1 / 2) =
      fallbackEncode rtThrows (jsStr "image/webp") (1 / 2) :=
  (convertNativeFormat_fallback rtThrows (jsStr "image/webp") (1 / 2)).1 rfl

/-- A runtime whose `toBlob` runs but reports failure (`null` callback
argument) while its `toDataURL` works fine. -/
def rtNullEncoder : JsRuntime :=
  ⟨fun _ _ => ToBlobOutcome.cbNull,
   fun _ _ => DataURLOutcome.returns (jsStr "data:image/png;base64,AAAA")⟩

/-- Counterexample to C6 as stated: the built-in encoder fails (its
callback receives `null`) and the fallback path would have succeeded, yet
the error is surfaced without the fallback being attempted. -/
theorem convertNativeFormat_no_fallback_cex :
    convertNativeFormat rtNullEncoder (jsStr "image/webp") (1 / 2) =
      Except.error JsError.blobFailed ∧
    fallbackEncode rtNullEncoder (jsStr "image/webp") (1 / 2) =
      Except.ok ⟨jsStr "image/png", [0, 0, 0]⟩ := by
  exact ⟨rfl, by decide⟩

/-- C9: on the PNG path the quality parameter is not passed to `toBlob`
(the argument is `undefined`), so as long as the environment's `toDataURL`
ignores the quality argument for PNG (as the HTML specification requires
of a conforming encoder), the conversion result is byte-identical for any
two quality values. -/
theorem convertNativeFormat_png_quality (rt : JsRuntime) (q1 q2 : ℚ)
    (hdu : ∀ a b : ℚ, rt.toDataURLImpl (jsStr "image/png") a =
      rt.toDataURLImpl (jsStr "image/png") b) :
    convertNativeFormat rt (jsStr "image/png") q1 =
      convertNativeFormat rt (jsStr "image/png") q2 := by
  have hq : ∀ q : ℚ, qualityArg (jsStr "image/png") q = none := fun q => by
    simp [qualityArg]
  unfold convertNativeFormat fallbackEncode
  rw [hq q1, hq q2, hdu q1 q2]

/-- Witness for C9 at quality 0 versus 1 on a concrete runtime. -/
theorem convertNativeFormat_png_quality_wit :
    convertNativeFormat rtThrows (jsStr "image/png") 0 =
      convertNativeFormat rtThrows (jsStr "image/png") 1 :=
  convertNativeFormat_png_quality rtThrows 0 1 (fun _ _ => rfl)

/-- Decimal rendering of a nonnegative integral JS number, as a template
literal interpolates `canvas.width`/`canvas.height`. -/
def numStr (n : ℕ) : List ℕ := jsStr (Nat.repr n)

/-- The template literal of the SVG branch of `convertImageFile`, pieces
in source order. -/
def svgMarkup (w h : ℕ) (pngData : List ℕ) : List ℕ :=
  jsStr "<svg xmlns=\"http://www.w3.org/2000/svg\" width=\"" ++ numStr w ++
  jsStr "\" height=\"" ++ numStr h ++ jsStr "\"><image href=\"" ++ pngData ++
  jsStr "\" width=\"" ++ numStr w ++ jsStr "\" height=\"" ++ numStr h ++
  jsStr "\"/></svg>"

/-- The SVG branch of `convertImageFile`:
`new Blob([svg], {type 'image/svg+xml'})`. -/
def convertSVG (w h : ℕ) (pngData : List ℕ) : Blob :=
  ⟨jsStr "image/svg+xml", svgMarkup w h pngData⟩

/-- Modelled from the spec's words: the root element, declaring `width`
and `height` attributes equal to the resampled dimensions. -/
def svgRootOpenSpec (w h : ℕ) : List ℕ :=
  jsStr "<svg xmlns=\"http://www.w3.org/2000/svg\" width=\"" ++ numStr w ++
  jsStr "\" height=\"" ++ numStr h ++ jsStr "\">"

/-- Modelled from the spec's words: the single embedded-image element,
referencing the data string, with sizing attributes set to the same
dimensions. -/
def svgImageElemSpec (pngData : List ℕ) (w h : ℕ) : List ℕ :=
  jsStr "<image href=\"" ++ pngData ++ jsStr "\" width=\"" ++ numStr w ++
  jsStr "\" height=\"" ++ numStr h ++ jsStr "\"/>"

/-- Modelled from the spec's words: the whole minimal vector document,
root element containing exactly one embedded-image element. -/
def svgMarkupSpec (w h : ℕ) (pngData : List ℕ) : List ℕ :=
  svgRootOpenSpec w h ++ svgImageElemSpec pngData w h ++ jsStr "</svg>"

/-- C8: the SVG output is of MIME type `image/svg+xml`, its payload is
exactly the spec's minimal vector document (root with width/height equal
to the resampled dimensions, one embedded-image element with the same
sizing attributes referencing the data string), and whenever the embedded
data string begins with the PNG type tag the document's `href` attribute
value begins with that tag. -/
theorem convertSVG_ok (w h : ℕ) (pngData : List ℕ) :
    (convertSVG w h pngData).mime = jsStr "image/svg+xml" ∧
    (convertSVG w h pngData).bytes = svgMarkupSpec w h pngData ∧
    (∀ t, pngData = jsStr "data:image/png" ++ t →
      ∃ u v, (convertSVG w h pngData).bytes =
        u ++ (jsStr "href=\"" ++ jsStr "data:image/png") ++ v) := by
  refine ⟨rfl, ?_, ?_⟩
  · show svgMarkup w h pngData = svgMarkupSpec w h pngData
    simp only [svgMarkup, svgMarkupSpec, svgRootOpenSpec, svgImageElemSpec]
    rw [show (jsStr "\"><image href=\"" : List ℕ) =
          jsStr "\">" ++ jsStr "<image href=\"" from by decide,
        show (jsStr "\"/></svg>" : List ℕ) =
          jsStr "\"/>" ++ jsStr "</svg>" from by decide]
    simp [List.append_assoc]
  · intro t ht
    subst ht
    refine ⟨jsStr "<svg xmlns=\"http://www.w3.org/2000/svg\" width=\"" ++
      numStr w ++ jsStr "\" height=\"" ++ numStr h ++ jsStr "\"><image ",
      t ++ (jsStr "\" width=\"" ++ numStr w ++ jsStr "\" height=\"" ++
        numStr h ++ jsStr "\"/></svg>"), ?_⟩
    show svgMarkup w h _ = _
    simp only [svgMarkup]
    rw [show (jsStr "\"><image href=\"" : List ℕ) =
          jsStr "\"><image " ++ jsStr "href=\"" from by decide]
    simp [List.append_assoc]

/-- Witness for C8's embedded-reference clause at concrete dimensions and
a concrete PNG data string. -/
theorem convertSVG_ok_wit :
    ∃ u v, (convertSVG 3 5 (jsStr "data:image/png;base64,AA")).bytes =
      u ++ (jsStr "href=\"" ++ jsStr "data:image/png") ++ v :=
  (convertSVG_ok 3 5 (jsStr "data:image/png;base64,AA")).2.2
    (jsStr ";base64,AA") (by decide)
